import Mathlib

/-!
Shallow embedding of the core logic of the Strava-Challenge repository:

* the OAuth token cache and refresh flow of `getAccessToken`
  (src/app/api/strava/route/route.ts, cache-based version), and
* the polyline decoder `decodePolyline` and the projection `buildSvgPath`
  (src/app/challenge/mission-client.tsx).

Effects are made explicit: the module-level token cache is passed in and
returned, the wall clock is a parameter, and the single upstream HTTP call
of the refresh flow is a parameter describing its outcome.  Numbers are
embedded as `Int`/`Nat`/`Rat` (JS number arithmetic on the values involved
is exact), with JS 32-bit bitwise semantics modelled explicitly where the
decoder uses them.
-/

/-- Environment configuration as read from `process.env` by `getAccessToken`.
`none` models an unset variable. -/
structure Env where
  stravaAccessToken : Option String
  stravaClientId : Option String
  stravaClientSecret : Option String
  stravaRefreshToken : Option String

/-- The module-level `cachedAccessToken` slot:
`let cachedAccessToken: { token: string; expiresAt: number } | null`. -/
structure CachedToken where
  token : String
  expiresAt : Int
deriving DecidableEq

/-- The JSON body of a successful token-refresh response:
`{ access_token: string; expires_at: number }`. -/
structure TokenResponse where
  access_token : String
  expires_at : Int
deriving DecidableEq

/-- The two failure modes of `getAccessToken`: the `Missing Strava env vars`
throw and the `Strava token refresh failed` throw (carrying the upstream
status and response body text). -/
inductive TokenError where
  | configurationError (message : String)
  | upstreamAuthError (status : Nat) (body : String)
deriving DecidableEq

/-- Result of one call to `getAccessToken`: the returned token or the thrown
error, the state of the module-level cache slot after the call, and whether
the upstream token endpoint was contacted. -/
structure TokenResult where
  result : Except TokenError String
  cache : Option CachedToken
  networkCalled : Bool

/-- JS truthiness of an environment variable (`undefined` and `""` are falsy). -/
def envTruthy : Option String → Bool
  | none => false
  | some s => !s.isEmpty

/-- The exact message of the configuration throw in `getAccessToken`. -/
def missingEnvMessage : String :=
  "Missing Strava env vars. Provide STRAVA_ACCESS_TOKEN OR (STRAVA_CLIENT_ID, STRAVA_CLIENT_SECRET, STRAVA_REFRESH_TOKEN)."

/-- The refresh call itself: `fetch("https://www.strava.com/oauth/token", ...)`
followed by the `!res.ok` throw or the atomic cache replacement
`cachedAccessToken = { token: data.access_token, expiresAt: data.expires_at }`. -/
def doTokenRefresh (cachedAccessToken : Option CachedToken)
    (fetchResult : Except (Nat × String) TokenResponse) : TokenResult :=
  match fetchResult with
  | .error (status, body) =>
    ⟨.error (.upstreamAuthError status body), cachedAccessToken, true⟩
  | .ok data =>
    ⟨.ok data.access_token, some ⟨data.access_token, data.expires_at⟩, true⟩

/-- The refresh-token flow of `getAccessToken` (everything after the static
token early return): credential presence check, then the cache fast path
`if (cachedAccessToken && cachedAccessToken.expiresAt - 30 > now)`, else the
upstream refresh. -/
def refreshFlow (env : Env) (cachedAccessToken : Option CachedToken) (now : Int)
    (fetchResult : Except (Nat × String) TokenResponse) : TokenResult :=
  if !envTruthy env.stravaClientId || !envTruthy env.stravaClientSecret
      || !envTruthy env.stravaRefreshToken then
    ⟨.error (.configurationError missingEnvMessage), cachedAccessToken, false⟩
  else
    match cachedAccessToken with
    | some c =>
      if c.expiresAt - 30 > now then ⟨.ok c.token, cachedAccessToken, false⟩
      else doTokenRefresh cachedAccessToken fetchResult
    | none => doTokenRefresh cachedAccessToken fetchResult

/-- `getAccessToken` of src/app/api/strava/route/route.ts (the cache-based
version): `if (process.env.STRAVA_ACCESS_TOKEN) return ...` then the refresh
flow.  `now` is `Math.floor(Date.now() / 1000)`. -/
def getAccessToken (env : Env) (cachedAccessToken : Option CachedToken) (now : Int)
    (fetchResult : Except (Nat × String) TokenResponse) : TokenResult :=
  match env.stravaAccessToken with
  | some t =>
    if !t.isEmpty then ⟨.ok t, cachedAccessToken, false⟩
    else refreshFlow env cachedAccessToken now fetchResult
  | none => refreshFlow env cachedAccessToken now fetchResult

/-- Whether the character list `ns` is an initial segment of `cs`. -/
def startsWithList : List Char → List Char → Bool
  | _, [] => true
  | [], _ :: _ => false
  | c :: cs, n :: ns => c == n && startsWithList cs ns

/-- Whether the character list `ns` occurs contiguously anywhere in `cs`. -/
def containsList : List Char → List Char → Bool
  | [], ns => startsWithList [] ns
  | c :: cs, ns => startsWithList (c :: cs) ns || containsList cs ns

/-- Whether `needle` occurs as a substring of `msg` (used to talk about which
credential names an error message mentions). -/
def mentions (msg needle : String) : Bool :=
  containsList msg.toList needle.toList

/-! ## Polyline decoder (`decodePolyline` of mission-client.tsx) -/

/-- The UTF-16 code units of a string, as consumed by `charCodeAt`. -/
def stringCodes (s : String) : List Nat := s.toList.map Char.toNat

/-- One `do { b = encoded.charCodeAt(index++) - 63; result |= (b & 0x1f) << shift;
shift += 5 } while (b >= 0x20)` loop.  Reading past the end of the string gives
`NaN`, for which `NaN & 0x1f` is `0` and `NaN >= 0x20` is false, so the loop
contributes nothing and terminates; `b >= 0x20` for an in-range code `c` is
`c - 63 >= 32`, i.e. `95 <= c`.  `result` is kept as the unsigned view of the
JS int32 bit pattern; `<<` shifts by `shift % 32` and truncates to 32 bits. -/
def readChunks : List Nat → Nat → Nat → Nat × List Nat
  | [], _, result => (result, [])
  | c :: rest, shift, result =>
    let result := result ||| ((((c : Int) - 63).emod 32).toNat <<< (shift % 32)) % 4294967296
    if 95 ≤ c then readChunks rest (shift + 5) result else (result, rest)

/-- The signed (int32) value of a 32-bit pattern. -/
def toSigned32 (u : Nat) : Int :=
  if u < 2147483648 then (u : Int) else (u : Int) - 4294967296

/-- `(result & 1) ? ~(result >> 1) : (result >> 1)`: JS `>>` is the arithmetic
shift `fdiv 2` of the signed value, and `~x = -x - 1`. -/
def decodeDelta (result : Nat) : Int :=
  if result % 2 = 1 then -(Int.fdiv (toSigned32 result) 2) - 1
  else Int.fdiv (toSigned32 result) 2

theorem readChunks_length_le (cs : List Nat) :
    ∀ shift result, (readChunks cs shift result).2.length ≤ cs.length := by
  induction cs with
  | nil => intro shift result; exact Nat.le_refl 0
  | cons c rest ih =>
    intro shift result
    simp only [readChunks]
    split
    · exact Nat.le_trans (ih _ _) (Nat.le_succ _)
    · exact Nat.le_succ _

theorem readChunks_length_lt (c : Nat) (rest : List Nat) (shift result : Nat) :
    (readChunks (c :: rest) shift result).2.length < (c :: rest).length := by
  simp only [readChunks]
  split
  · exact Nat.lt_succ_of_le (readChunks_length_le rest _ _)
  · exact Nat.lt_succ_of_le (Nat.le_refl _)

/-- The `while (index < len)` loop of `decodePolyline`: per iteration, one
chunk group for the latitude delta, one for the longitude delta, then
`coordinates.push([lat / 1e5, lng / 1e5])` (here the raw integer accumulators
are collected; the division happens in `decodePolyline`).  The recursion is
driven by `fuel`, an upper bound on the number of loop iterations; every
iteration consumes at least one input code, so with `fuel ≥ cs.length` (as
passed by `decodePolyline`) the fuel cutoff is unreachable. -/
def decodeLoop : Nat → List Nat → Int → Int → List (Int × Int)
  | 0, _, _, _ => []
  | _, [], _, _ => []
  | fuel + 1, c :: rest, lat, lng =>
    let p1 := readChunks (c :: rest) 0 0
    let lat' := lat + decodeDelta p1.1
    let p2 := readChunks p1.2 0 0
    let lng' := lng + decodeDelta p2.1
    (lat', lng') :: decodeLoop fuel p2.2 lat' lng'

/-- `decodePolyline` of mission-client.tsx: decode the string and scale each
accumulator pair by `1 / 1e5` (exact in `Rat`). -/
def decodePolyline (encoded : String) : List (Rat × Rat) :=
  (decodeLoop (stringCodes encoded).length (stringCodes encoded) 0 0).map
    (fun p => ((p.1 : Rat) / 100000, (p.2 : Rat) / 100000))

/-- Number of complete 5-bit chunk groups a code-unit list parses into: a group
is zero or more continuation bytes (code `>= 95`) followed by one terminator
byte (code `< 95`).  `none` when the input ends inside a group.  `inGroup`
records whether a group is currently open. -/
def countGroups : List Nat → Bool → Option Nat
  | [], inGroup => if inGroup then none else some 0
  | c :: rest, _ =>
    if 95 ≤ c then countGroups rest true
    else (countGroups rest false).map (· + 1)

/-- Chunk-group count of a full string (no group open initially). -/
def chunkGroups (cs : List Nat) : Option Nat := countGroups cs false

/-! ## Route projection (`buildSvgPath` of mission-client.tsx) -/

/-- `Math.min(...l)` over a nonempty list (the empty case is unreachable in
`buildSvgPath` because of the `points.length < 2` guard; it is given the
value 0 here). -/
def listMin : List Rat → Rat
  | [] => 0
  | x :: xs => xs.foldl min x

/-- `Math.max(...l)` over a nonempty list (empty case unreachable, value 0). -/
def listMax : List Rat → Rat
  | [] => 0
  | x :: xs => xs.foldl max x

/-- `span || 1`: a zero bounding-box span is substituted with 1
(`const dx = maxX - minX || 1`). -/
def spanOr1 (s : Rat) : Rat := if s = 0 then 1 else s

/-- `const xs = points.map((p) => p[1])` — longitudes. -/
def xsOf (points : List (Rat × Rat)) : List Rat := points.map (fun p => p.2)

/-- `const ys = points.map((p) => p[0])` — latitudes. -/
def ysOf (points : List (Rat × Rat)) : List Rat := points.map (fun p => p.1)

/-- `const minX = Math.min(...xs)`. -/
def minXOf (points : List (Rat × Rat)) : Rat := listMin (xsOf points)

/-- `const maxX = Math.max(...xs)`. -/
def maxXOf (points : List (Rat × Rat)) : Rat := listMax (xsOf points)

/-- `const minY = Math.min(...ys)`. -/
def minYOf (points : List (Rat × Rat)) : Rat := listMin (ysOf points)

/-- `const maxY = Math.max(...ys)`. -/
def maxYOf (points : List (Rat × Rat)) : Rat := listMax (ysOf points)

/-- `const dx = maxX - minX || 1`. -/
def dxOf (points : List (Rat × Rat)) : Rat := spanOr1 (maxXOf points - minXOf points)

/-- `const dy = maxY - minY || 1`. -/
def dyOf (points : List (Rat × Rat)) : Rat := spanOr1 (maxYOf points - minYOf points)

/-- `const innerW = Math.max(1, width - padding * 2)`. -/
def innerWOf (width padding : Rat) : Rat := max 1 (width - padding * 2)

/-- `const innerH = Math.max(1, height - padding * 2)`. -/
def innerHOf (height padding : Rat) : Rat := max 1 (height - padding * 2)

/-- `const scale = Math.min(innerW / dx, innerH / dy)` — the single uniform
scale factor. -/
def scaleOf (points : List (Rat × Rat)) (width height padding : Rat) : Rat :=
  min (innerWOf width padding / dxOf points) (innerHOf height padding / dyOf points)

/-- `const offsetX = padding + (innerW - dx * scale) / 2`. -/
def offsetXOf (points : List (Rat × Rat)) (width height padding : Rat) : Rat :=
  padding + (innerWOf width padding - dxOf points * scaleOf points width height padding) / 2

/-- `const offsetY = padding + (innerH - dy * scale) / 2`. -/
def offsetYOf (points : List (Rat × Rat)) (width height padding : Rat) : Rat :=
  padding + (innerHOf height padding - dyOf points * scaleOf points width height padding) / 2

/-- The `mapped` list of `buildSvgPath`:
`x = offsetX + (lng - minX) * scale`, `y = offsetY + (maxY - lat) * scale`. -/
def buildSvgMapped (points : List (Rat × Rat)) (width height padding : Rat) :
    List (Rat × Rat) :=
  points.map (fun p =>
    (offsetXOf points width height padding
        + (p.2 - minXOf points) * scaleOf points width height padding,
      offsetYOf points width height padding
        + (maxYOf points - p.1) * scaleOf points width height padding))

/-- `Number.prototype.toFixed(2)` on an exact rational: sign first, then the
magnitude rounded to the nearest multiple of 1/100 (ties away from zero),
printed with two decimals. -/
def toFixed2 (x : Rat) : String :=
  let s := if x < 0 then "-" else ""
  let y := if x < 0 then -x else x
  let n : Nat := (⌊y * 100 + 1 / 2⌋).toNat
  let frac := n % 100
  s ++ toString (n / 100) ++ "." ++ (if frac < 10 then "0" else "") ++ toString frac

/-- The bounding box returned by `buildSvgPath` (geographic coordinates). -/
structure BBox where
  minX : Rat
  maxX : Rat
  minY : Rat
  maxY : Rat
deriving DecidableEq

/-- Return value of `buildSvgPath`: the SVG path string and the bounding box
(`bbox: null` for fewer than 2 points). -/
structure SvgPathResult where
  d : String
  bbox : Option BBox
deriving DecidableEq

/-- `buildSvgPath` of mission-client.tsx: guard on fewer than 2 points, then
the path string `M x0 y0 L x1 y1 ...` over the projected points with
coordinates printed via `toFixed(2)`. -/
def buildSvgPath (points : List (Rat × Rat)) (width height : Rat)
    (padding : Rat := 16) : SvgPathResult :=
  if points.length < 2 then { d := "", bbox := none }
  else
    let mapped := buildSvgMapped points width height padding
    { d := String.intercalate " " (mapped.enum.map (fun iq =>
        (if iq.1 == 0 then "M" else "L") ++ " " ++ toFixed2 iq.2.1 ++ " "
          ++ toFixed2 iq.2.2)),
      bbox := some ⟨minXOf points, maxXOf points, minYOf points, maxYOf points⟩ }

/-! ## Helper lemmas about `listMin` / `listMax` -/

theorem foldl_min_le_init (xs : List Rat) : ∀ a : Rat, xs.foldl min a ≤ a := by
  induction xs with
  | nil => intro a; exact le_refl a
  | cons y ys ih => intro a; exact le_trans (ih (min a y)) (min_le_left a y)

theorem init_le_foldl_max (xs : List Rat) : ∀ a : Rat, a ≤ xs.foldl max a := by
  induction xs with
  | nil => intro a; exact le_refl a
  | cons y ys ih => intro a; exact le_trans (le_max_left a y) (ih (max a y))

theorem foldl_min_le_mem (xs : List Rat) :
    ∀ (a b : Rat), b ∈ xs → xs.foldl min a ≤ b := by
  induction xs with
  | nil => intro a b h; cases h
  | cons y ys ih =>
    intro a b h
    rcases List.mem_cons.mp h with rfl | h
    · exact le_trans (foldl_min_le_init ys (min a b)) (min_le_right a b)
    · exact ih (min a y) b h

theorem mem_le_foldl_max (xs : List Rat) :
    ∀ (a b : Rat), b ∈ xs → b ≤ xs.foldl max a := by
  induction xs with
  | nil => intro a b h; cases h
  | cons y ys ih =>
    intro a b h
    rcases List.mem_cons.mp h with rfl | h
    · exact le_trans (le_max_right a b) (init_le_foldl_max ys (max a b))
    · exact ih (max a y) b h

theorem listMin_le_mem {l : List Rat} {b : Rat} (h : b ∈ l) : listMin l ≤ b := by
  cases l with
  | nil => cases h
  | cons x xs =>
    rcases List.mem_cons.mp h with rfl | h
    · exact foldl_min_le_init xs b
    · exact foldl_min_le_mem xs x b h

theorem mem_le_listMax {l : List Rat} {b : Rat} (h : b ∈ l) : b ≤ listMax l := by
  cases l with
  | nil => cases h
  | cons x xs =>
    rcases List.mem_cons.mp h with rfl | h
    · exact init_le_foldl_max xs b
    · exact mem_le_foldl_max xs x b h

theorem listMin_le_listMax {l : List Rat} (h : l ≠ []) : listMin l ≤ listMax l := by
  cases l with
  | nil => exact absurd rfl h
  | cons x xs =>
    exact le_trans (listMin_le_mem (List.mem_cons_self x xs))
      (mem_le_listMax (List.mem_cons_self x xs))

theorem listSpan_nonneg (l : List Rat) : 0 ≤ listMax l - listMin l := by
  cases l with
  | nil => simp [listMin, listMax]
  | cons x xs => exact sub_nonneg.mpr (listMin_le_listMax (List.cons_ne_nil x xs))

theorem spanOr1_pos {s : Rat} (hs : 0 ≤ s) : 0 < spanOr1 s := by
  unfold spanOr1
  split
  · exact one_pos
  · exact lt_of_le_of_ne hs (Ne.symm (by assumption))

theorem le_spanOr1 (s : Rat) : s ≤ spanOr1 s := by
  unfold spanOr1
  split
  · simp [*]
  · exact le_refl s

theorem foldl_min_map_comm (f : Rat → Rat)
    (hf : ∀ u v, f (min u v) = min (f u) (f v)) :
    ∀ (xs : List Rat) (a : Rat), (xs.map f).foldl min (f a) = f (xs.foldl min a) := by
  intro xs
  induction xs with
  | nil => intro a; rfl
  | cons y ys ih =>
    intro a
    simp only [List.map_cons, List.foldl_cons]
    rw [← hf, ih]

theorem foldl_max_map_comm (f : Rat → Rat)
    (hf : ∀ u v, f (max u v) = max (f u) (f v)) :
    ∀ (xs : List Rat) (a : Rat), (xs.map f).foldl max (f a) = f (xs.foldl max a) := by
  intro xs
  induction xs with
  | nil => intro a; rfl
  | cons y ys ih =>
    intro a
    simp only [List.map_cons, List.foldl_cons]
    rw [← hf, ih]

theorem foldl_max_map_anti (g : Rat → Rat)
    (hg : ∀ u v, g (min u v) = max (g u) (g v)) :
    ∀ (xs : List Rat) (a : Rat), (xs.map g).foldl max (g a) = g (xs.foldl min a) := by
  intro xs
  induction xs with
  | nil => intro a; rfl
  | cons y ys ih =>
    intro a
    simp only [List.map_cons, List.foldl_cons]
    rw [← hg, ih]

theorem foldl_min_map_anti (g : Rat → Rat)
    (hg : ∀ u v, g (max u v) = min (g u) (g v)) :
    ∀ (xs : List Rat) (a : Rat), (xs.map g).foldl min (g a) = g (xs.foldl max a) := by
  intro xs
  induction xs with
  | nil => intro a; rfl
  | cons y ys ih =>
    intro a
    simp only [List.map_cons, List.foldl_cons]
    rw [← hg, ih]

theorem listMin_map_mono (f : Rat → Rat)
    (hf : ∀ u v, f (min u v) = min (f u) (f v)) {l : List Rat} (hl : l ≠ []) :
    listMin (l.map f) = f (listMin l) := by
  cases l with
  | nil => exact absurd rfl hl
  | cons x xs =>
    simp only [List.map_cons, listMin]
    exact foldl_min_map_comm f hf xs x

theorem listMax_map_mono (f : Rat → Rat)
    (hf : ∀ u v, f (max u v) = max (f u) (f v)) {l : List Rat} (hl : l ≠ []) :
    listMax (l.map f) = f (listMax l) := by
  cases l with
  | nil => exact absurd rfl hl
  | cons x xs =>
    simp only [List.map_cons, listMax]
    exact foldl_max_map_comm f hf xs x

theorem listMax_map_anti (g : Rat → Rat)
    (hg : ∀ u v, g (min u v) = max (g u) (g v)) {l : List Rat} (hl : l ≠ []) :
    listMax (l.map g) = g (listMin l) := by
  cases l with
  | nil => exact absurd rfl hl
  | cons x xs =>
    simp only [List.map_cons, listMax, listMin]
    exact foldl_max_map_anti g hg xs x

theorem listMin_map_anti (g : Rat → Rat)
    (hg : ∀ u v, g (max u v) = min (g u) (g v)) {l : List Rat} (hl : l ≠ []) :
    listMin (l.map g) = g (listMax l) := by
  cases l with
  | nil => exact absurd rfl hl
  | cons x xs =>
    simp only [List.map_cons, listMin, listMax]
    exact foldl_min_map_anti g hg xs x

/-! ## Facts about the projection quantities -/

theorem innerWOf_pos (width padding : Rat) : 0 < innerWOf width padding :=
  lt_of_lt_of_le one_pos (le_max_left 1 (width - padding * 2))

theorem innerHOf_pos (height padding : Rat) : 0 < innerHOf height padding :=
  lt_of_lt_of_le one_pos (le_max_left 1 (height - padding * 2))

theorem dxOf_pos (points : List (Rat × Rat)) : 0 < dxOf points :=
  spanOr1_pos (listSpan_nonneg (xsOf points))

theorem dyOf_pos (points : List (Rat × Rat)) : 0 < dyOf points :=
  spanOr1_pos (listSpan_nonneg (ysOf points))

theorem scaleOf_pos (points : List (Rat × Rat)) (width height padding : Rat) :
    0 < scaleOf points width height padding :=
  lt_min (div_pos (innerWOf_pos width padding) (dxOf_pos points))
    (div_pos (innerHOf_pos height padding) (dyOf_pos points))

theorem dx_mul_scale_le (points : List (Rat × Rat)) (width height padding : Rat) :
    dxOf points * scaleOf points width height padding ≤ innerWOf width padding := by
  unfold scaleOf
  have h := min_le_left (innerWOf width padding / dxOf points)
    (innerHOf height padding / dyOf points)
  have := (le_div_iff₀ (dxOf_pos points)).mp h
  linarith

theorem dy_mul_scale_le (points : List (Rat × Rat)) (width height padding : Rat) :
    dyOf points * scaleOf points width height padding ≤ innerHOf height padding := by
  unfold scaleOf
  have h := min_le_right (innerWOf width padding / dxOf points)
    (innerHOf height padding / dyOf points)
  have := (le_div_iff₀ (dyOf_pos points)).mp h
  linarith

/-- Claim C7 (amended): whenever the padded inner area is at least 1×1 in each
direction (`width - 2 * padding ≥ 1` and `height - 2 * padding ≥ 1`, so the
`Math.max(1, ...)` clamps do not engage), every projected point of
`buildSvgPath` lies within `[padding, width - padding]` on the x axis and
`[padding, height - padding]` on the y axis.  The claim's unrestricted form is
false: see the counterexample with `padding = 5` on a 10×10 surface. -/
theorem buildSvgMapped_mem_bounds (points : List (Rat × Rat)) (width height padding : Rat)
    (hw : 1 ≤ width - padding * 2) (hh : 1 ≤ height - padding * 2) :
    ∀ q ∈ buildSvgMapped points width height padding,
      padding ≤ q.1 ∧ q.1 ≤ width - padding ∧ padding ≤ q.2 ∧ q.2 ≤ height - padding := by
  intro q hq
  rw [buildSvgMapped] at hq
  rcases List.mem_map.mp hq with ⟨p, hp, rfl⟩
  have hiw : innerWOf width padding = width - padding * 2 := max_eq_right hw
  have hih : innerHOf height padding = height - padding * 2 := max_eq_right hh
  have hs := scaleOf_pos points width height padding
  have hdxs := dx_mul_scale_le points width height padding
  have hdys := dy_mul_scale_le points width height padding
  have hpx : p.2 ∈ xsOf points := List.mem_map_of_mem _ hp
  have hpy : p.1 ∈ ysOf points := List.mem_map_of_mem _ hp
  have h1 : minXOf points ≤ p.2 := listMin_le_mem hpx
  have h2 : p.2 ≤ maxXOf points := mem_le_listMax hpx
  have h3 : minYOf points ≤ p.1 := listMin_le_mem hpy
  have h4 : p.1 ≤ maxYOf points := mem_le_listMax hpy
  have hdx : maxXOf points - minXOf points ≤ dxOf points := le_spanOr1 _
  have hdy : maxYOf points - minYOf points ≤ dyOf points := le_spanOr1 _
  have e1 : 0 ≤ (p.2 - minXOf points) * scaleOf points width height padding :=
    mul_nonneg (by linarith) hs.le
  have e2 : (p.2 - minXOf points) * scaleOf points width height padding
      ≤ dxOf points * scaleOf points width height padding :=
    mul_le_mul_of_nonneg_right (by linarith) hs.le
  have e3 : 0 ≤ (maxYOf points - p.1) * scaleOf points width height padding :=
    mul_nonneg (by linarith) hs.le
  have e4 : (maxYOf points - p.1) * scaleOf points width height padding
      ≤ dyOf points * scaleOf points width height padding :=
    mul_le_mul_of_nonneg_right (by linarith) hs.le
  dsimp only
  simp only [offsetXOf, offsetYOf]
  rw [hiw, hih]
  refine ⟨by linarith, by linarith, by linarith, by linarith⟩

theorem buildSvgMapped_fst_eq (points : List (Rat × Rat)) (width height padding : Rat) :
    (buildSvgMapped points width height padding).map (fun q => q.1)
      = (xsOf points).map (fun v =>
          offsetXOf points width height padding
            + (v - minXOf points) * scaleOf points width height padding) := by
  simp only [buildSvgMapped, xsOf, List.map_map]
  rfl

theorem buildSvgMapped_snd_eq (points : List (Rat × Rat)) (width height padding : Rat) :
    (buildSvgMapped points width height padding).map (fun q => q.2)
      = (ysOf points).map (fun v =>
          offsetYOf points width height padding
            + (maxYOf points - v) * scaleOf points width height padding) := by
  simp only [buildSvgMapped, ysOf, List.map_map]
  rfl

theorem mapped_xspan (points : List (Rat × Rat)) (width height padding : Rat)
    (hne : points ≠ []) :
    listMax ((buildSvgMapped points width height padding).map (fun q => q.1))
        - listMin ((buildSvgMapped points width height padding).map (fun q => q.1))
      = (maxXOf points - minXOf points) * scaleOf points width height padding := by
  have hxs : xsOf points ≠ [] := by
    intro h
    exact hne (List.map_eq_nil_iff.mp h)
  have hs := (scaleOf_pos points width height padding).le
  have hm : Monotone (fun v =>
      offsetXOf points width height padding
        + (v - minXOf points) * scaleOf points width height padding) := by
    intro u v huv
    have := mul_le_mul_of_nonneg_right (sub_le_sub_right huv (minXOf points)) hs
    dsimp only
    linarith
  rw [buildSvgMapped_fst_eq,
    listMax_map_mono _ (fun u v => hm.map_max) hxs,
    listMin_map_mono _ (fun u v => hm.map_min) hxs]
  show _ + (listMax (xsOf points) - _) * _ - (_ + (listMin (xsOf points) - _) * _) = _
  rw [maxXOf, minXOf]
  ring

theorem mapped_yspan (points : List (Rat × Rat)) (width height padding : Rat)
    (hne : points ≠ []) :
    listMax ((buildSvgMapped points width height padding).map (fun q => q.2))
        - listMin ((buildSvgMapped points width height padding).map (fun q => q.2))
      = (maxYOf points - minYOf points) * scaleOf points width height padding := by
  have hys : ysOf points ≠ [] := by
    intro h
    exact hne (List.map_eq_nil_iff.mp h)
  have hs := (scaleOf_pos points width height padding).le
  have hm : Antitone (fun v =>
      offsetYOf points width height padding
        + (maxYOf points - v) * scaleOf points width height padding) := by
    intro u v huv
    have := mul_le_mul_of_nonneg_right (sub_le_sub_left huv (maxYOf points)) hs
    dsimp only
    linarith
  rw [buildSvgMapped_snd_eq,
    listMax_map_anti _ (fun u v => hm.map_min) hys,
    listMin_map_anti _ (fun u v => hm.map_max) hys]
  show _ + (_ - listMin (ysOf points)) * _ - (_ + (_ - listMax (ysOf points)) * _) = _
  rw [maxYOf, minYOf]
  ring

/-! ## Chunk-group accounting for the decoder -/

theorem countGroups_true_pos (cs : List Nat) :
    ∀ n : Nat, countGroups cs true = some n → 1 ≤ n := by
  induction cs with
  | nil => intro n h; simp [countGroups] at h
  | cons c rest ih =>
    intro n h
    simp only [countGroups] at h
    by_cases hc : 95 ≤ c
    · rw [if_pos hc] at h
      exact ih n h
    · rw [if_neg hc] at h
      rcases Option.map_eq_some'.mp h with ⟨m, _, hmn⟩
      omega

theorem countGroups_false_zero (cs : List Nat)
    (h : countGroups cs false = some 0) : cs = [] := by
  cases cs with
  | nil => rfl
  | cons c rest =>
    simp only [countGroups] at h
    by_cases hc : 95 ≤ c
    · rw [if_pos hc] at h
      exact absurd (countGroups_true_pos rest 0 h) (by omega)
    · rw [if_neg hc] at h
      rcases Option.map_eq_some'.mp h with ⟨m, _, hmn⟩
      omega

theorem readChunks_groups_true (cs : List Nat) :
    ∀ (shift result n : Nat), countGroups cs true = some (n + 1) →
      countGroups (readChunks cs shift result).2 false = some n := by
  induction cs with
  | nil => intro shift result n h; simp [countGroups] at h
  | cons c rest ih =>
    intro shift result n h
    simp only [countGroups] at h
    simp only [readChunks]
    by_cases hc : 95 ≤ c
    · rw [if_pos hc] at h ⊢
      exact ih _ _ n h
    · rw [if_neg hc] at h ⊢
      rcases Option.map_eq_some'.mp h with ⟨m, hm, hmn⟩
      have : m = n := by omega
      subst this
      exact hm

theorem readChunks_groups_false (cs : List Nat) (shift result n : Nat)
    (h : countGroups cs false = some (n + 1)) :
    countGroups (readChunks cs shift result).2 false = some n := by
  cases cs with
  | nil => simp [countGroups] at h
  | cons c rest =>
    simp only [countGroups] at h
    simp only [readChunks]
    by_cases hc : 95 ≤ c
    · rw [if_pos hc] at h ⊢
      exact readChunks_groups_true rest _ _ n h
    · rw [if_neg hc] at h ⊢
      rcases Option.map_eq_some'.mp h with ⟨m, hm, hmn⟩
      have : m = n := by omega
      subst this
      exact hm

theorem decodeLoop_nil (fuel : Nat) (lat lng : Int) :
    decodeLoop fuel [] lat lng = [] := by
  cases fuel <;> rfl

theorem decodeLoop_length (fuel : Nat) :
    ∀ (cs : List Nat) (lat lng : Int) (n : Nat), cs.length ≤ fuel →
      countGroups cs false = some n →
      (decodeLoop fuel cs lat lng).length = (n + 1) / 2 := by
  induction fuel with
  | zero =>
    intro cs lat lng n hk hn
    have hcs : cs = [] := List.length_eq_zero.mp (Nat.le_zero.mp hk)
    subst hcs
    simp only [countGroups, if_neg (by simp : ¬(false = true)), Option.some.injEq] at hn
    subst hn
    simp [decodeLoop]
  | succ j ih =>
    intro cs lat lng n hk hn
    cases cs with
    | nil =>
      simp only [countGroups, if_neg (by simp : ¬(false = true)), Option.some.injEq] at hn
      subst hn
      simp [decodeLoop]
    | cons c rest =>
      have hn0 : n ≠ 0 := by
        intro h0
        subst h0
        exact List.cons_ne_nil c rest (countGroups_false_zero _ hn)
      obtain ⟨m, rfl⟩ : ∃ m, n = m + 1 := ⟨n - 1, by omega⟩
      have h1 : countGroups (readChunks (c :: rest) 0 0).2 false = some m :=
        readChunks_groups_false _ _ _ _ hn
      rw [decodeLoop]
      cases m with
      | zero =>
        have h2 : (readChunks (c :: rest) 0 0).2 = [] := countGroups_false_zero _ h1
        simp only [List.length_cons, h2]
        simp [readChunks, decodeLoop_nil]
      | succ m' =>
        have h2 : countGroups (readChunks (readChunks (c :: rest) 0 0).2 0 0).2 false
            = some m' := readChunks_groups_false _ _ _ _ h1
        have hlen : (readChunks (readChunks (c :: rest) 0 0).2 0 0).2.length ≤ j := by
          have l1 := readChunks_length_lt c rest 0 0
          have l2 := readChunks_length_le (readChunks (c :: rest) 0 0).2 0 0
          simp only [List.length_cons] at hk l1
          omega
        have hrec := ih _ (lat + decodeDelta (readChunks (c :: rest) 0 0).1)
          (lng + decodeDelta (readChunks (readChunks (c :: rest) 0 0).2 0 0).1)
          m' hlen h2
        simp only [List.length_cons, hrec]
        omega

/-! ## Token-flow facts -/

theorem getAccessToken_not_static (env : Env) (cache : Option CachedToken) (now : Int)
    (fetch : Except (Nat × String) TokenResponse)
    (h : envTruthy env.stravaAccessToken = false) :
    getAccessToken env cache now fetch = refreshFlow env cache now fetch := by
  unfold getAccessToken
  cases henv : env.stravaAccessToken with
  | none => rfl
  | some t =>
    rw [henv] at h
    simp only [envTruthy, Bool.not_eq_false'] at h
    simp [h]

theorem doTokenRefresh_network (cache : Option CachedToken)
    (fetch : Except (Nat × String) TokenResponse) :
    (doTokenRefresh cache fetch).networkCalled = true := by
  cases fetch with
  | error e => obtain ⟨st, b⟩ := e; rfl
  | ok data => rfl

theorem refreshFlow_cache_cases (env : Env) (cache : Option CachedToken) (now : Int)
    (fetch : Except (Nat × String) TokenResponse) :
    (refreshFlow env cache now fetch).cache = cache
    ∨ refreshFlow env cache now fetch = doTokenRefresh cache fetch := by
  unfold refreshFlow
  split
  · exact Or.inl rfl
  · cases cache with
    | none => exact Or.inr rfl
    | some c =>
      dsimp only
      by_cases hc : c.expiresAt - 30 > now
      · exact Or.inl (by rw [if_pos hc])
      · exact Or.inr (by rw [if_neg hc])

theorem getAccessToken_cache_cases (env : Env) (cache : Option CachedToken) (now : Int)
    (fetch : Except (Nat × String) TokenResponse) :
    (getAccessToken env cache now fetch).cache = cache
    ∨ getAccessToken env cache now fetch = doTokenRefresh cache fetch := by
  unfold getAccessToken
  cases henv : env.stravaAccessToken with
  | none => exact refreshFlow_cache_cases env cache now fetch
  | some t =>
    cases ht : t.isEmpty with
    | true => simpa [ht] using refreshFlow_cache_cases env cache now fetch
    | false => exact Or.inl (by simp [ht])

/-! ## Claim theorems -/

/-- Claim C1: with no static token configured and full credentials present, a
cached token with `expiresAt - 30 > now` is returned as-is with no network
call and no cache change; a cached token with `expiresAt = now + 30` is
treated as expired and a refresh is performed (the usability boundary is
exclusive). -/
theorem getAccessToken_cached_fast_path (env : Env) (c : CachedToken) (now : Int)
    (fetch : Except (Nat × String) TokenResponse)
    (hstatic : envTruthy env.stravaAccessToken = false)
    (hid : envTruthy env.stravaClientId = true)
    (hsec : envTruthy env.stravaClientSecret = true)
    (href : envTruthy env.stravaRefreshToken = true) :
    (c.expiresAt - 30 > now →
      getAccessToken env (some c) now fetch = ⟨.ok c.token, some c, false⟩)
    ∧ (c.expiresAt = now + 30 →
      (getAccessToken env (some c) now fetch).networkCalled = true) := by
  rw [getAccessToken_not_static env (some c) now fetch hstatic]
  constructor
  · intro hvalid
    simp [refreshFlow, hid, hsec, href, hvalid]
  · intro hb
    have hexp : ¬(c.expiresAt - 30 > now) := by omega
    simp [refreshFlow, hid, hsec, href, hexp, doTokenRefresh_network]

/-- Witness for C1: concrete inputs satisfying the hypotheses; expiry 1000 is
usable at time 0 and on the boundary at time 970. -/
theorem getAccessToken_cached_fast_path_witness :
    ((⟨"tok", 1000⟩ : CachedToken).expiresAt - 30 > (0 : Int))
    ∧ getAccessToken (Env.mk none (some "id") (some "secret") (some "rt"))
        (some ⟨"tok", 1000⟩) 0 (.ok ⟨"fresh", 2000⟩)
        = ⟨.ok "tok", some ⟨"tok", 1000⟩, false⟩
    ∧ (getAccessToken (Env.mk none (some "id") (some "secret") (some "rt"))
        (some ⟨"tok", 1000⟩) 970 (.ok ⟨"fresh", 2000⟩)).networkCalled = true :=
  ⟨by decide,
    (getAccessToken_cached_fast_path (Env.mk none (some "id") (some "secret") (some "rt"))
      ⟨"tok", 1000⟩ 0 (.ok ⟨"fresh", 2000⟩) (by decide) (by decide) (by decide)
      (by decide)).1 (by decide),
    (getAccessToken_cached_fast_path (Env.mk none (some "id") (some "secret") (some "rt"))
      ⟨"tok", 1000⟩ 970 (.ok ⟨"fresh", 2000⟩) (by decide) (by decide) (by decide)
      (by decide)).2 (by decide)⟩

/-- Claim C2: decoding the standard test vector yields the documented
reference coordinates (38.5, -120.2), (40.7, -120.95), (43.252, -126.453). -/
theorem decodePolyline_reference_vector :
    decodePolyline "_p~iF~ps|U_ulLnnqC_mqNvxq`@"
      = [(38.5, -120.2), (40.7, -120.95), (43.252, -126.453)] := by
  have h : decodeLoop (stringCodes "_p~iF~ps|U_ulLnnqC_mqNvxq`@").length
      (stringCodes "_p~iF~ps|U_ulLnnqC_mqNvxq`@") 0 0
      = [(3850000, -12020000), (4070000, -12095000), (4325200, -12645300)] := by decide
  unfold decodePolyline
  rw [h]
  simp only [List.map_cons, List.map_nil]
  norm_num

/-- Claim C4: a failed upstream refresh never touches the cache slot, and the
cache changes only by being atomically replaced, as a whole, with the data of
a successful refresh response. -/
theorem getAccessToken_cache_atomic (env : Env) (cache : Option CachedToken)
    (now : Int) (status : Nat) (body : String) (resp : TokenResponse) :
    (getAccessToken env cache now (.error (status, body))).cache = cache
    ∧ ((getAccessToken env cache now (.ok resp)).cache = cache
      ∨ (getAccessToken env cache now (.ok resp)).cache
          = some ⟨resp.access_token, resp.expires_at⟩) := by
  constructor
  · rcases getAccessToken_cache_cases env cache now (.error (status, body)) with h | h
    · exact h
    · rw [h]
      rfl
  · rcases getAccessToken_cache_cases env cache now (.ok resp) with h | h
    · exact Or.inl h
    · exact Or.inr (by rw [h]; rfl)

/-- Claim C5 counterexample: with the client secret missing but the client id
present, the thrown configuration message still names STRAVA_CLIENT_ID, so
the message does not enumerate exactly the missing credentials — it is a
fixed string naming all of them. -/
theorem getAccessToken_missing_creds_cex :
    envTruthy (Env.mk none (some "id") none (some "rt")).stravaClientId = true
    ∧ envTruthy (Env.mk none (some "id") none (some "rt")).stravaClientSecret = false
    ∧ (getAccessToken (Env.mk none (some "id") none (some "rt")) none 0
        (.error (500, ""))).result = .error (.configurationError missingEnvMessage)
    ∧ mentions missingEnvMessage "STRAVA_CLIENT_ID" = true :=
  ⟨by decide, by decide, rfl, by decide⟩

/-- Claim C5 (amended): when no (truthy) static token is configured and at
least one credential is missing, `getAccessToken` fails with the
configuration error carrying the one fixed message; that message names the
static-token alternative and all three credentials, regardless of which ones
are actually missing.  The cache is untouched and no network call happens. -/
theorem getAccessToken_missing_creds (env : Env) (cache : Option CachedToken)
    (now : Int) (fetch : Except (Nat × String) TokenResponse)
    (hstatic : envTruthy env.stravaAccessToken = false)
    (hmiss : envTruthy env.stravaClientId = false
      ∨ envTruthy env.stravaClientSecret = false
      ∨ envTruthy env.stravaRefreshToken = false) :
    getAccessToken env cache now fetch
      = ⟨.error (.configurationError missingEnvMessage), cache, false⟩
    ∧ mentions missingEnvMessage "STRAVA_CLIENT_ID" = true
    ∧ mentions missingEnvMessage "STRAVA_CLIENT_SECRET" = true
    ∧ mentions missingEnvMessage "STRAVA_REFRESH_TOKEN" = true
    ∧ mentions missingEnvMessage "STRAVA_ACCESS_TOKEN" = true := by
  refine ⟨?_, by decide, by decide, by decide, by decide⟩
  rw [getAccessToken_not_static env cache now fetch hstatic]
  rcases hmiss with h | h | h <;> simp [refreshFlow, h]

/-- Witness for C5 (amended) with only the client secret missing. -/
theorem getAccessToken_missing_creds_witness :
    envTruthy (Env.mk none (some "id") none (some "rt")).stravaAccessToken = false
    ∧ envTruthy (Env.mk none (some "id") none (some "rt")).stravaClientSecret = false
    ∧ getAccessToken (Env.mk none (some "id") none (some "rt")) none 0 (.error (500, ""))
        = ⟨.error (.configurationError missingEnvMessage), none, false⟩ :=
  ⟨by decide, by decide,
    (getAccessToken_missing_creds (Env.mk none (some "id") none (some "rt")) none 0
      (.error (500, "")) (by decide) (Or.inr (Or.inl (by decide)))).1⟩

/-- Claim C6 counterexample: the input consisting of the single complete
latitude chunk group of the test vector (one chunk group, no complete
lat/lng pair) still makes `decodePolyline` emit a final pair, with the unread
longitude contributing a zero delta. -/
theorem decodePolyline_truncated_cex :
    chunkGroups (stringCodes "_p~iF") = some 1
    ∧ decodePolyline "_p~iF" = [(38.5, 0)] := by
  constructor
  · decide
  · have h : decodeLoop (stringCodes "_p~iF").length (stringCodes "_p~iF") 0 0
        = [(3850000, 0)] := by decide
    unfold decodePolyline
    rw [h]
    simp only [List.map_cons, List.map_nil]
    norm_num

/-- Claim C6 (amended): `decodePolyline` emits only structurally complete
(lat, lng) pairs — never a lone latitude — but an input that ends partway
through a pair still produces a final pair from the partial data: an input
parsing into exactly `n` complete chunk groups yields `(n + 1) / 2` pairs
(rounding up), not `n / 2` (rounding down) as the claim would require. -/
theorem decodePolyline_pair_count (s : String) (n : Nat)
    (h : chunkGroups (stringCodes s) = some n) :
    (decodePolyline s).length = (n + 1) / 2 := by
  unfold chunkGroups at h
  unfold decodePolyline
  rw [List.length_map]
  exact decodeLoop_length (stringCodes s).length (stringCodes s) 0 0 n (le_refl _) h

/-- Witness for C6 (amended): the test vector has 6 chunk groups and decodes
to 3 pairs. -/
theorem decodePolyline_pair_count_witness :
    chunkGroups (stringCodes "_p~iF~ps|U_ulLnnqC_mqNvxq`@") = some 6
    ∧ (decodePolyline "_p~iF~ps|U_ulLnnqC_mqNvxq`@").length = (6 + 1) / 2 :=
  ⟨by decide, decodePolyline_pair_count "_p~iF~ps|U_ulLnnqC_mqNvxq`@" 6 (by decide)⟩

/-- Claim C3: for a non-degenerate point set (both geographic spans nonzero),
the projection of `buildSvgPath` uses one uniform scale, so the projected
x-span over the projected y-span equals the longitude span over the latitude
span (exactly, in `Rat`). -/
theorem buildSvgMapped_uniform_scale (points : List (Rat × Rat))
    (width height padding : Rat)
    (hx : maxXOf points - minXOf points ≠ 0)
    (hy : maxYOf points - minYOf points ≠ 0) :
    (listMax ((buildSvgMapped points width height padding).map (fun q => q.1))
        - listMin ((buildSvgMapped points width height padding).map (fun q => q.1)))
      / (listMax ((buildSvgMapped points width height padding).map (fun q => q.2))
        - listMin ((buildSvgMapped points width height padding).map (fun q => q.2)))
      = (maxXOf points - minXOf points) / (maxYOf points - minYOf points) := by
  have hne : points ≠ [] := by
    intro h
    subst h
    simp [maxXOf, minXOf, xsOf, listMax, listMin] at hx
  rw [mapped_xspan points width height padding hne,
    mapped_yspan points width height padding hne]
  have hs : scaleOf points width height padding ≠ 0 :=
    (scaleOf_pos points width height padding).ne'
  have hys : (maxYOf points - minYOf points) * scaleOf points width height padding ≠ 0 :=
    mul_ne_zero hy hs
  rw [div_eq_div_iff hys hy]
  ring

/-- Witness for C3: two points spanning 2 longitude degrees and 1 latitude
degree, projected onto a 640x360 surface with padding 16. -/
theorem buildSvgMapped_uniform_scale_witness :
    (maxXOf [((0:Rat), (0:Rat)), (1, 2)] - minXOf [((0:Rat), (0:Rat)), (1, 2)] ≠ 0)
    ∧ (maxYOf [((0:Rat), (0:Rat)), (1, 2)] - minYOf [((0:Rat), (0:Rat)), (1, 2)] ≠ 0)
    ∧ (listMax ((buildSvgMapped [((0:Rat), (0:Rat)), (1, 2)] 640 360 16).map (fun q => q.1))
        - listMin ((buildSvgMapped [((0:Rat), (0:Rat)), (1, 2)] 640 360 16).map (fun q => q.1)))
      / (listMax ((buildSvgMapped [((0:Rat), (0:Rat)), (1, 2)] 640 360 16).map (fun q => q.2))
        - listMin ((buildSvgMapped [((0:Rat), (0:Rat)), (1, 2)] 640 360 16).map (fun q => q.2)))
      = (maxXOf [((0:Rat), (0:Rat)), (1, 2)] - minXOf [((0:Rat), (0:Rat)), (1, 2)])
        / (maxYOf [((0:Rat), (0:Rat)), (1, 2)] - minYOf [((0:Rat), (0:Rat)), (1, 2)]) := by
  have hx : maxXOf [((0:Rat), (0:Rat)), (1, 2)] - minXOf [((0:Rat), (0:Rat)), (1, 2)] ≠ 0 := by
    norm_num [maxXOf, minXOf, xsOf, listMax, listMin, max_def, min_def]
  have hy : maxYOf [((0:Rat), (0:Rat)), (1, 2)] - minYOf [((0:Rat), (0:Rat)), (1, 2)] ≠ 0 := by
    norm_num [maxYOf, minYOf, ysOf, listMax, listMin, max_def, min_def]
  exact ⟨hx, hy, buildSvgMapped_uniform_scale [((0:Rat), (0:Rat)), (1, 2)] 640 360 16 hx hy⟩

/-- Claim C7 counterexample: on a 10x10 surface with padding 5 the inner area
degenerates (`Math.max(1, 10 - 5 * 2) = 1`) and the projected point (6, 5)
violates `x ≤ width - padding = 5`, refuting the claim for arbitrary
width/height/padding. -/
theorem buildSvgMapped_bounds_cex :
    (((6:Rat), (5:Rat)) ∈ buildSvgMapped [((0:Rat), (0:Rat)), (1, 1)] 10 10 5)
    ∧ ¬((6:Rat) ≤ 10 - 5) := by
  have h : buildSvgMapped [((0:Rat), (0:Rat)), (1, 1)] 10 10 5 = [(5, 6), (6, 5)] := by
    norm_num [buildSvgMapped, offsetXOf, offsetYOf, scaleOf, innerWOf, innerHOf,
      dxOf, dyOf, maxXOf, minXOf, maxYOf, minYOf, xsOf, ysOf, listMax, listMin,
      spanOr1, min_def, max_def]
  constructor
  · rw [h]
    exact List.mem_cons_of_mem _ (List.mem_cons_self _ _)
  · norm_num

/-- Witness for C7 (amended): on the 640x360 surface with padding 16 the
projected point (16, 332) of the two-point route satisfies all four bounds. -/
theorem buildSvgMapped_bounds_witness :
    ((1:Rat) ≤ 640 - 16 * 2) ∧ ((1:Rat) ≤ 360 - 16 * 2)
    ∧ (((16:Rat), (332:Rat)) ∈ buildSvgMapped [((0:Rat), (0:Rat)), (1, 2)] 640 360 16)
    ∧ ((16:Rat) ≤ 16 ∧ (16:Rat) ≤ 640 - 16 ∧ (16:Rat) ≤ 332 ∧ (332:Rat) ≤ 360 - 16) := by
  have h : buildSvgMapped [((0:Rat), (0:Rat)), (1, 2)] 640 360 16
      = [(16, 332), (624, 28)] := by
    norm_num [buildSvgMapped, offsetXOf, offsetYOf, scaleOf, innerWOf, innerHOf,
      dxOf, dyOf, maxXOf, minXOf, maxYOf, minYOf, xsOf, ysOf, listMax, listMin,
      spanOr1, min_def, max_def]
  have hmem : ((16:Rat), (332:Rat)) ∈ buildSvgMapped [((0:Rat), (0:Rat)), (1, 2)] 640 360 16 := by
    rw [h]
    exact List.mem_cons_self _ _
  exact ⟨by norm_num, by norm_num, hmem,
    buildSvgMapped_mem_bounds [((0:Rat), (0:Rat)), (1, 2)] 640 360 16
      (by norm_num) (by norm_num) ((16:Rat), (332:Rat)) hmem⟩

/-- Claim C8: a configured (truthy) static access token is returned
unconditionally — cache and expiry logic are bypassed, the cache slot is left
as-is (even a stale entry), and no network call is made. -/
theorem getAccessToken_static_bypass (env : Env) (cache : Option CachedToken)
    (now : Int) (fetch : Except (Nat × String) TokenResponse) (t : String)
    (ht : env.stravaAccessToken = some t) (hne : t.isEmpty = false) :
    getAccessToken env cache now fetch = ⟨.ok t, cache, false⟩ := by
  unfold getAccessToken
  rw [ht]
  simp [hne]

/-- Witness for C8: static token returned even though the cache holds a stale
entry (expired at 0, queried at time 100) and the upstream would fail. -/
theorem getAccessToken_static_bypass_witness :
    ((Env.mk (some "static") none none none).stravaAccessToken = some "static")
    ∧ ("static".isEmpty = false)
    ∧ getAccessToken (Env.mk (some "static") none none none) (some ⟨"old", 0⟩) 100
        (.error (500, "boom")) = ⟨.ok "static", some ⟨"old", 0⟩, false⟩ :=
  ⟨rfl, by decide,
    getAccessToken_static_bypass (Env.mk (some "static") none none none)
      (some ⟨"old", 0⟩) 100 (.error (500, "boom")) "static" rfl (by decide)⟩

/-- Claim C9: fewer than 2 points yields the empty path (and a null bbox),
and no division by zero can occur: the scale divisors substitute 1 for a zero
bounding-box span and are strictly positive for every input. -/
theorem buildSvgPath_degenerate (points : List (Rat × Rat)) (width height padding : Rat) :
    (points.length < 2 → buildSvgPath points width height padding = ⟨"", none⟩)
    ∧ 0 < dxOf points ∧ 0 < dyOf points
    ∧ (maxXOf points - minXOf points = 0 → dxOf points = 1)
    ∧ (maxYOf points - minYOf points = 0 → dyOf points = 1) := by
  refine ⟨?_, dxOf_pos points, dyOf_pos points, ?_, ?_⟩
  · intro h
    unfold buildSvgPath
    rw [if_pos h]
  · intro h
    simp [dxOf, spanOr1, h]
  · intro h
    simp [dyOf, spanOr1, h]

/-- Witness for C9: a single point produces the empty path, and its zero
spans are substituted with 1. -/
theorem buildSvgPath_degenerate_witness :
    ([((1:Rat), (2:Rat))].length < 2)
    ∧ buildSvgPath [((1:Rat), (2:Rat))] 640 360 16 = ⟨"", none⟩
    ∧ dxOf [((1:Rat), (2:Rat))] = 1 :=
  ⟨by decide, (buildSvgPath_degenerate [((1:Rat), (2:Rat))] 640 360 16).1 (by decide),
    (buildSvgPath_degenerate [((1:Rat), (2:Rat))] 640 360 16).2.2.2.1 (by
      norm_num [maxXOf, minXOf, xsOf, listMax, listMin])⟩

/-- Claim C10: when no static token is configured and a credential is
missing, the configuration error is thrown even though a still-valid cached
token exists — the credential check runs before the cache fast path. -/
theorem getAccessToken_env_check_first (env : Env) (c : CachedToken) (now : Int)
    (fetch : Except (Nat × String) TokenResponse)
    (hstatic : envTruthy env.stravaAccessToken = false)
    (hmiss : envTruthy env.stravaClientId = false
      ∨ envTruthy env.stravaClientSecret = false
      ∨ envTruthy env.stravaRefreshToken = false)
    (hvalid : c.expiresAt - 30 > now) :
    getAccessToken env (some c) now fetch
      = ⟨.error (.configurationError missingEnvMessage), some c, false⟩ := by
  rw [getAccessToken_not_static env (some c) now fetch hstatic]
  rcases hmiss with h | h | h <;> simp [refreshFlow, h]

/-- Witness for C10: missing client secret beats a cached token that would be
valid until 1000 at time 0. -/
theorem getAccessToken_env_check_first_witness :
    envTruthy (Env.mk none (some "id") none (some "rt")).stravaClientSecret = false
    ∧ ((⟨"tok", 1000⟩ : CachedToken).expiresAt - 30 > (0 : Int))
    ∧ getAccessToken (Env.mk none (some "id") none (some "rt")) (some ⟨"tok", 1000⟩) 0
        (.ok ⟨"fresh", 2000⟩)
        = ⟨.error (.configurationError missingEnvMessage), some ⟨"tok", 1000⟩, false⟩ :=
  ⟨by decide, by decide,
    getAccessToken_env_check_first (Env.mk none (some "id") none (some "rt"))
      ⟨"tok", 1000⟩ 0 (.ok ⟨"fresh", 2000⟩) (by decide)
      (Or.inr (Or.inl (by decide))) (by decide)⟩
